import Mathlib

/-!
Verification of `assetman/compilers.py` (incremental asset-compilation engine).

Shallow embedding notes:
* Python 2 byte strings are modelled as Lean `String`s; where byte-level size or
  base64 encoding matters, a string is converted to its list of character codes
  (`strBytes`), which agrees with the byte view for the ASCII data involved.
* Exceptions (`CompileError`, `DependencyError`, `AssertionError` from `assert`)
  are modelled by `Except Err`.
* The filesystem is a finite map from paths to file contents; `os.path.isfile`
  and `os.path.exists` are lookups in it (only file paths are ever queried).
* External subprocesses (`subprocess.Popen` + `communicate`) are an oracle
  `ProcEnv : command -> stdin -> (returncode, stdout, stderr)`; compiler
  functions additionally return the ordered trace of spawned processes.
* `assetman.tools` (`make_static_path`, `make_output_path`, `get_static_pattern`)
  and `mimetypes.guess_type` are external to `src/`; they are abstracted as
  the parameters collected in `PathEnv`, and regex matching of the static
  pattern is modelled by a pre-decomposed list of `CssPiece`s (the exact
  decomposition `re.sub` computes: unmatched text alternating with the four
  capture groups of each match).
* Logging calls are dropped except where a claim observes them
  (`run_proc`'s stderr warning).
-/

/-- Errors raised by the compiler module: `CompileError(cmd, stderr)`,
`DependencyError(src_path, joined_missing)`, and Python `AssertionError`
(carrying the principal datum of the assertion message). -/
inductive Err where
  | compileError (cmd : List String) (stderr : String)
  | dependencyError (src : String) (missing : String)
  | assertionError (info : String)
  deriving DecidableEq, Repr

/-- Whether an error is the `DependencyError` kind. -/
def Err.isDependency : Err → Bool
  | .dependencyError _ _ => true
  | _ => false

/-- Outcome of one external process: exit code plus captured stdout/stderr
(`proc.communicate` collects both streams fully). -/
structure ProcResult where
  returncode : Int
  stdout : String
  stderr : String
  deriving DecidableEq, Repr

/-- The external-process oracle: what `subprocess.Popen(cmd).communicate(stdin)`
returns for a given command and optional stdin payload. -/
def ProcEnv : Type := List String → Option String → ProcResult

/-- Observable log events modelled (only the one a claim mentions):
`logging.warn('%s stderr:\n%s', cmd[0], err)`. -/
inductive Log where
  | warnStderr (cmd0 : String) (err : String)
  deriving DecidableEq, Repr

/-- Embeds `run_proc(cmd, stdin=None)`: spawn the command, feed `stdin`,
collect output; nonzero exit raises `CompileError(cmd, err)`; zero exit with
nonempty stderr logs a warning and still returns stdout. Returns the
result together with the emitted log events. -/
def run_proc (env : ProcEnv) (cmd : List String) (stdin : Option String) :
    Except Err String × List Log :=
  let r := env cmd stdin
  if r.returncode ≠ 0 then
    (.error (.compileError cmd r.stderr), [])
  else if r.stderr ≠ "" then
    (.ok r.stdout, [.warnStderr (cmd.headD "") r.stderr])
  else
    (.ok r.stdout, [])

/-- A filesystem snapshot: finite map from absolute path to file contents
(Python 2 `str` bytes, modelled as `String`). -/
def Fs : Type := List (String × String)

/-- Embeds `os.path.isfile(p)` (and `os.path.exists(p)`: only file paths are
ever queried by this module). -/
def isfile (fs : Fs) (p : String) : Bool :=
  (fs.lookup p).isSome

/-- Embeds `open(path).read()`. -/
def readFile (fs : Fs) (p : String) : Except Err String :=
  match fs.lookup p with
  | some c => .ok c
  | none => .error (.assertionError p)

/-- A build manifest: `assets` maps an asset path to its content-version
(`manifest['assets'][path]['version']`), `blocks` maps a block identifier to
its aggregate version (`manifest['blocks'][name_hash]['version']`). -/
structure Manifest where
  assets : List (String × String)
  blocks : List (String × String)

/-- The per-block configuration an `AssetCompiler` instance carries:
its declared relative urls (`self.rel_urls`), the template source path
(`self.src_path`), its identifier (`self.get_hash()`), and its compiled output
file name (`self.get_compiled_name()`). -/
structure BlockCfg where
  rel_urls : List String
  src_path : String
  name_hash : String
  compiled_name : String

/-- The `self.settings` entries this module reads. -/
structure Settings where
  static_dir : String
  static_url_prefix : String
  yui_compressor_path : String
  lessc_path : String
  sass_compiler_path : String
  closure_compiler : String

/-- Modelled from the spec: the path-resolution interface of `assetman.tools`
(not under `src/`) plus `mimetypes.guess_type`. `make_static_path2` is the
two-argument form `make_static_path(static_dir, rel_url)` used by `get_paths`;
`make_static_path1` is the one-argument call `make_static_path(rel_path)` made
by `inline_images`; `make_output_path(static_dir, compiled_name)` names the
compiled artifact; `guess_type` is the MIME lookup keyed by file extension
(`None` when unregistered). -/
structure PathEnv where
  make_static_path2 : String → String → String
  make_static_path1 : String → String
  make_output_path : String → String → String
  guess_type : String → Option String

/-- Embeds `AssetCompiler.get_compiled_path`. -/
def get_compiled_path (pe : PathEnv) (σ : Settings) (blk : BlockCfg) : String :=
  pe.make_output_path σ.static_dir blk.compiled_name

/-- Embeds `AssetCompiler.get_paths`: map every declared relative url through
`make_static_path(static_dir, ·)`; if any resolved path is not a file, raise
`DependencyError(src_path, ','.join(missing))` where `missing` collects every
non-file path; otherwise return the resolved paths in declared order. -/
def get_paths (pe : PathEnv) (fs : Fs) (σ : Settings) (blk : BlockCfg) :
    Except Err (List String) :=
  let paths := blk.rel_urls.map (pe.make_static_path2 σ.static_dir)
  if paths.all (fun p => isfile fs p) then
    .ok paths
  else
    .error (.dependencyError blk.src_path
      (String.intercalate "," (paths.filter (fun p => ! isfile fs p))))

/-- Embeds `AssetCompiler.needs_compile(cached_manifest, current_manifest)`:
`assert name_hash in current_manifest['blocks']` (an `AssertionError` when
violated); then `False` exactly when the cached manifest has the block, the
cached version equals the current version, and the compiled output path exists
on disk; every other combination gives `True`. -/
def needs_compile (pe : PathEnv) (σ : Settings) (blk : BlockCfg) (fs : Fs)
    (cached current : Manifest) : Except Err Bool :=
  match current.blocks.lookup blk.name_hash with
  | none => .error (.assertionError blk.name_hash)
  | some content_hash =>
    match cached.blocks.lookup blk.name_hash with
    | some cached_version =>
      if cached_version = content_hash then
        if isfile fs (get_compiled_path pe σ blk) then .ok false
        else .ok true
      else .ok true
    | none => .ok true

/-- Byte view of a Python 2 `str`: the character codes of the Lean string
(agreeing with the byte string for the ASCII data this module handles). -/
def strBytes (s : String) : List Nat :=
  s.data.map Char.toNat

/-- Per-round left-rotation amounts of MD5 (RFC 1321). -/
def md5_s : List Nat :=
  [7, 12, 17, 22, 7, 12, 17, 22, 7, 12, 17, 22, 7, 12, 17, 22,
   5, 9, 14, 20, 5, 9, 14, 20, 5, 9, 14, 20, 5, 9, 14, 20,
   4, 11, 16, 23, 4, 11, 16, 23, 4, 11, 16, 23, 4, 11, 16, 23,
   6, 10, 15, 21, 6, 10, 15, 21, 6, 10, 15, 21, 6, 10, 15, 21]

/-- Per-round additive constants of MD5 (RFC 1321). -/
def md5_K : List Nat :=
  [0xd76aa478, 0xe8c7b756, 0x242070db, 0xc1bdceee,
   0xf57c0faf, 0x4787c62a, 0xa8304613, 0xfd469501,
   0x698098d8, 0x8b44f7af, 0xffff5bb1, 0x895cd7be,
   0x6b901122, 0xfd987193, 0xa679438e, 0x49b40821,
   0xf61e2562, 0xc040b340, 0x265e5a51, 0xe9b6c7aa,
   0xd62f105d, 0x02441453, 0xd8a1e681, 0xe7d3fbc8,
   0x21e1cde6, 0xc33707d6, 0xf4d50d87, 0x455a14ed,
   0xa9e3e905, 0xfcefa3f8, 0x676f02d9, 0x8d2a4c8a,
   0xfffa3942, 0x8771f681, 0x6d9d6122, 0xfde5380c,
   0xa4beea44, 0x4bdecfa9, 0xf6bb4b60, 0xbebfbc70,
   0x289b7ec6, 0xeaa127fa, 0xd4ef3085, 0x04881d05,
   0xd9d4d039, 0xe6db99e5, 0x1fa27cf8, 0xc4ac5665,
   0xf4292244, 0x432aff97, 0xab9423a7, 0xfc93a039,
   0x655b59c3, 0x8f0ccc92, 0xffeff47d, 0x85845dd1,
   0x6fa87e4f, 0xfe2ce6e0, 0xa3014314, 0x4e0811a1,
   0xf7537e82, 0xbd3af235, 0x2ad7d2bb, 0xeb86d391]

/-- Bitwise complement on 32-bit words represented as `Nat`. -/
def u32not (x : Nat) : Nat :=
  x ^^^ 0xffffffff

/-- Left rotation on 32-bit words represented as `Nat`. -/
def rotl32 (x c : Nat) : Nat :=
  ((x <<< c) ||| (x >>> (32 - c))) % 4294967296

/-- Little-endian 32-bit word `g` of a 64-byte chunk. -/
def md5_word (chunk : List Nat) (g : Nat) : Nat :=
  chunk.getD (4 * g) 0 + 256 * chunk.getD (4 * g + 1) 0 +
    65536 * chunk.getD (4 * g + 2) 0 + 16777216 * chunk.getD (4 * g + 3) 0

/-- One MD5 round `i` on state `(a, b, c, d)` over a 64-byte chunk. -/
def md5_round (chunk : List Nat) (st : Nat × Nat × Nat × Nat) (i : Nat) :
    Nat × Nat × Nat × Nat :=
  let (a, b, c, d) := st
  let fg : Nat × Nat :=
    if i < 16 then ((b &&& c) ||| (u32not b &&& d), i)
    else if i < 32 then ((d &&& b) ||| (u32not d &&& c), (5 * i + 1) % 16)
    else if i < 48 then (b ^^^ c ^^^ d, (3 * i + 5) % 16)
    else (c ^^^ (b ||| u32not d), (7 * i) % 16)
  let f := (fg.1 + a + md5_K.getD i 0 + md5_word chunk fg.2) % 4294967296
  (d, (b + rotl32 f (md5_s.getD i 0)) % 4294967296, b, c)

/-- MD5 compression of one 64-byte chunk into the running state. -/
def md5_chunk (st : Nat × Nat × Nat × Nat) (chunk : List Nat) :
    Nat × Nat × Nat × Nat :=
  let (a0, b0, c0, d0) := st
  let (a, b, c, d) := (List.range 64).foldl (md5_round chunk) (a0, b0, c0, d0)
  ((a0 + a) % 4294967296, (b0 + b) % 4294967296,
   (c0 + c) % 4294967296, (d0 + d) % 4294967296)

/-- Splits a byte list into 64-byte chunks; the fuel bounds the number of
chunks (each step consumes at least one byte of a nonempty list). -/
def chunks64Aux : Nat → List Nat → List (List Nat)
  | 0, _ => []
  | _, [] => []
  | fuel + 1, b :: rest =>
    (b :: rest).take 64 :: chunks64Aux fuel ((b :: rest).drop 64)

/-- Splits a byte list into 64-byte chunks. -/
def chunks64 (l : List Nat) : List (List Nat) :=
  chunks64Aux l.length l

/-- `k` little-endian bytes of `n`. -/
def leBytes (n : Nat) : Nat → List Nat
  | 0 => []
  | k + 1 => n % 256 :: leBytes (n / 256) k

/-- MD5 padding: append `0x80`, zero bytes to reach 56 mod 64, then the
original bit length as 8 little-endian bytes. -/
def md5_pad (msg : List Nat) : List Nat :=
  msg ++ [0x80] ++
    List.replicate ((56 + 64 - (msg.length + 1) % 64) % 64) 0 ++
    leBytes ((msg.length * 8) % 18446744073709551616) 8

/-- Lowercase hex digit for a value below 16. -/
def hexDigit (n : Nat) : Char :=
  "0123456789abcdef".data.getD n '0'

/-- Two lowercase hex digits of a byte. -/
def byteHex (b : Nat) : List Char :=
  [hexDigit (b / 16), hexDigit (b % 16)]

/-- The MD5 hex digest of a byte list (embeds `hashlib.md5(...).hexdigest()`).
Matches RFC 1321: little-endian word loading, 64 rounds per chunk, digest
printed as the little-endian bytes of the four state words in hex. -/
def md5hex (msg : List Nat) : String :=
  let (a, b, c, d) :=
    (chunks64 (md5_pad msg)).foldl md5_chunk
      (0x67452301, 0xefcdab89, 0x98badcfe, 0x10325476)
  String.mk
    (((leBytes a 4 ++ leBytes b 4 ++ leBytes c 4 ++ leBytes d 4).map
      byteHex).join)

/-- Embeds the asset-version lookup loop in
`AssetCompiler.get_current_content_hash`: for each path in order,
`assert path in manifest['assets']`, collecting the recorded versions. -/
def gather_versions (assets : List (String × String)) :
    List String → Except Err (List String)
  | [] => .ok []
  | p :: ps =>
    match assets.lookup p with
    | none => .error (.assertionError p)
    | some v => (gather_versions assets ps).map (fun vs => v :: vs)

/-- Embeds `AssetCompiler.get_current_content_hash(manifest)`: an md5 object
updated with the version of each of `get_paths()`'s entries in order, then
`hexdigest()`. Successive `h.update(x)` calls hash the concatenation of the
`x`s, so the digest is the md5 of the in-order concatenation of versions. -/
def get_current_content_hash (pe : PathEnv) (fs : Fs) (σ : Settings)
    (blk : BlockCfg) (manifest : Manifest) : Except Err String :=
  match get_paths pe fs σ blk with
  | .error e => .error e
  | .ok paths =>
    match gather_versions manifest.assets paths with
    | .error e => .error e
    | .ok versions => .ok (md5hex ((versions.map strBytes).join))

/-- The base64 alphabet. -/
def b64alphabet : List Char :=
  "ABCDEFGHIJKLMNOPQRSTUVWXYZabcdefghijklmnopqrstuvwxyz0123456789+/".data

/-- Character of a 6-bit value in the base64 alphabet. -/
def b64char (n : Nat) : Char :=
  b64alphabet.getD n 'A'

/-- Embeds `base64.b64encode`: standard base64 with `=` padding. -/
def b64encode : List Nat → String
  | [] => ""
  | [b0] =>
    String.mk [b64char (b0 / 4), b64char (b0 % 4 * 16), '=', '=']
  | [b0, b1] =>
    String.mk [b64char (b0 / 4), b64char (b0 % 4 * 16 + b1 / 16),
      b64char (b1 % 16 * 4), '=']
  | b0 :: b1 :: b2 :: rest =>
    String.mk [b64char (b0 / 4), b64char (b0 % 4 * 16 + b1 / 16),
      b64char (b1 % 16 * 4 + b2 / 64), b64char (b2 % 64)] ++ b64encode rest

/-- Embeds Python `'%s' % mime` on the result of `mimetypes.guess_type`:
the string itself, or the literal text `None` when the lookup returned
`None`. -/
def format_mime : Option String → String
  | some m => m
  | none => "None"

/-- The data URI built for an inlined asset:
`'data:%s;base64,%s' % (mimetypes.guess_type(path)[0], b64encode(contents))`
with `path = make_static_path(rel_path)`. -/
def data_uri_of (pe : PathEnv) (rel_path content : String) : String :=
  "data:" ++ format_mime (pe.guess_type (pe.make_static_path1 rel_path)) ++
    ";base64," ++ b64encode (strBytes content)

/-- The match decomposition `re.sub(pattern, replacer, css_src)` works on for
`pattern = (url\(["']?)(static prefix)(rel path)(["']?\))`: maximal unmatched
stretches of the CSS text (`lit`, including every `url()` expression that does
not match the static-asset pattern) alternating with matches, a match being its
four capture groups `before`/`url_prefix`/`rel_path`/`after` whose
concatenation is the whole matched text (`match.group(0)`). The matcher itself
(`get_static_pattern` of `assetman.tools`) is outside `src/`, so the
decomposition is taken as input. -/
inductive CssPiece where
  | lit (s : String)
  | ref (before url_prefix rel_path after : String)

/-- Original text of a piece (for a match, `match.group(0)`). -/
def pieceOrig : CssPiece → String
  | .lit s => s
  | .ref b up rp a => b ++ up ++ rp ++ a

/-- Embeds the nested `replacer(match)` of `CSSCompiler.inline_images`:
resolve the referenced path and `assert os.path.isfile(path)`; leave the match
untouched when the raw size exceeds `MAX_FILE_SIZE = 24 * 1024.0` bytes or
when the data URI reaches `MAX_DATA_URI_SIZE = 32 * 1024.0` characters
(the float thresholds coincide with the integer bounds 24576 and 32768 on
integer sizes); otherwise substitute the data URI for the url argument.
The `seen_assets` counter feeds only a duplicate-inline warning and is not
modelled. -/
def replacer (pe : PathEnv) (fs : Fs)
    (before url_prefix rel_path after : String) : Except Err String :=
  let path := pe.make_static_path1 rel_path
  match fs.lookup path with
  | none => .error (.assertionError path)
  | some content =>
    if content.length > 24576 then
      .ok (before ++ url_prefix ++ rel_path ++ after)
    else
      let data_uri := data_uri_of pe rel_path content
      if data_uri.length ≥ 32768 then
        .ok (before ++ url_prefix ++ rel_path ++ after)
      else
        .ok (before ++ data_uri ++ after)

/-- Embeds `CSSCompiler.inline_images` as `re.sub` over the match
decomposition: unmatched text is emitted verbatim, each match is emitted as
`replacer` rewrites it, and an exception from `replacer` (the isfile
assertion) aborts the whole pass. -/
def inline_images (pe : PathEnv) (fs : Fs) : List CssPiece → Except Err String
  | [] => .ok ""
  | .lit s :: rest => (inline_images pe fs rest).map (fun out => s ++ out)
  | .ref b up rp a :: rest =>
    match replacer pe fs b up rp a with
    | .error e => .error e
    | .ok r => (inline_images pe fs rest).map (fun out => r ++ out)

/-- The text a single piece contributes to a successful inlining pass. -/
def pieceOut (pe : PathEnv) (fs : Fs) : CssPiece → String
  | .lit s => s
  | .ref b up rp a =>
    match replacer pe fs b up rp a with
    | .ok r => r
    | .error _ => ""

/-- Embeds the `open(path).read()` loop of `CSSCompiler.do_compile` (a missing
file would be an IOError; unreachable after `get_paths` has checked
`isfile`). -/
def readAll (fs : Fs) : List String → Except Err (List String)
  | [] => .ok []
  | p :: ps =>
    match fs.lookup p with
    | none => .error (.assertionError p)
    | some c => (readAll fs ps).map (fun cs => c :: cs)

/-- Embeds `CSSCompiler.do_compile(**kwargs)`: take the pre-supplied
`css_input` if given, else the newline-join of the contents of the resolved
input paths; run `inline_images` unless `skip_inline_images`; pipe the result
into the YUI compressor over stdin. Returns the ordered trace of spawned
processes (command, stdin) together with the outcome; the regex matcher is the
`pieces_of` parameter (see `CssPiece`). -/
def css_do_compile (env : ProcEnv) (pe : PathEnv) (fs : Fs) (σ : Settings)
    (blk : BlockCfg) (css_input : Option String) (skip_inline_images : Bool)
    (pieces_of : String → List CssPiece) :
    List (List String × Option String) × Except Err String :=
  let css0 : Except Err String :=
    match css_input with
    | some c => .ok c
    | none =>
      match get_paths pe fs σ blk with
      | .error e => .error e
      | .ok paths =>
        match readAll fs paths with
        | .error e => .error e
        | .ok contents => .ok (String.intercalate "\n" contents)
  match css0 with
  | .error e => ([], .error e)
  | .ok css =>
    let inlined : Except Err String :=
      if skip_inline_images then .ok css
      else inline_images pe fs (pieces_of css)
    match inlined with
    | .error e => ([], .error e)
    | .ok css2 =>
      let cmd := ["java", "-jar", σ.yui_compressor_path,
        "--type", "css", "--line-break", "160"]
      ([(cmd, some css2)], (run_proc env cmd (some css2)).1)

/-- Embeds the list comprehension
`[run_proc([lessc, path]) for path in self.get_paths()]`: one transpiler
invocation per path in order; a nonzero exit raises at that point (earlier
processes have already been spawned, later paths are not reached). -/
def run_each (env : ProcEnv) (lessc : String) :
    List String → List (List String × Option String) × Except Err (List String)
  | [] => ([], .ok [])
  | p :: ps =>
    let cmd := [lessc, p]
    match (run_proc env cmd none).1 with
    | .error e => ([(cmd, none)], .error e)
    | .ok o =>
      let (tr, rest) := run_each env lessc ps
      ((cmd, none) :: tr, rest.map (fun os => o :: os))

/-- Embeds `LessCompiler.do_compile`: transpile each resolved input path with
one `lessc` invocation per file, join the outputs with a newline, and delegate
to `CSSCompiler.do_compile` with the join as `css_input` (no other kwargs are
forwarded, so `skip_inline_images` is absent, i.e. false, in the delegated
call). -/
def less_do_compile (env : ProcEnv) (pe : PathEnv) (fs : Fs) (σ : Settings)
    (blk : BlockCfg) (pieces_of : String → List CssPiece) :
    List (List String × Option String) × Except Err String :=
  match get_paths pe fs σ blk with
  | .error e => ([], .error e)
  | .ok paths =>
    match run_each env σ.lessc_path paths with
    | (tr, .error e) => (tr, .error e)
    | (tr, .ok outputs) =>
      let (tr2, res) := css_do_compile env pe fs σ blk
        (some (String.intercalate "\n" outputs)) false pieces_of
      (tr ++ tr2, res)

/-- Embeds `SassCompiler.do_compile`: build the transpiler command directly
from the declared relative urls (`self.rel_urls` — `get_paths` is never
called, so no path resolution or existence check precedes the spawn), run it
once, and delegate to `CSSCompiler.do_compile` with its stdout as `css_input`
(again without forwarding any other kwargs). -/
def sass_do_compile (env : ProcEnv) (pe : PathEnv) (fs : Fs) (σ : Settings)
    (blk : BlockCfg) (pieces_of : String → List CssPiece) :
    List (List String × Option String) × Except Err String :=
  let cmd := [σ.sass_compiler_path, "--compass", "--trace", "-l"] ++
    blk.rel_urls
  match (run_proc env cmd none).1 with
  | .error e => ([(cmd, none)], .error e)
  | .ok output =>
    let (tr, res) := css_do_compile env pe fs σ blk (some output) false
      pieces_of
    ((cmd, none) :: tr, res)

/-- C2: run_proc contract: exit code 0 returns the captured stdout, with a
stderr warning logged exactly when stderr is nonempty and never a failure;
nonzero exit fails with a CompileError carrying the command and the captured
stderr. -/
theorem run_proc_contract (env : ProcEnv) (cmd : List String)
    (stdin : Option String) :
    ((env cmd stdin).returncode = 0 →
      run_proc env cmd stdin =
        (.ok (env cmd stdin).stdout,
          if (env cmd stdin).stderr ≠ "" then
            [Log.warnStderr (cmd.headD "") (env cmd stdin).stderr]
          else [])) ∧
    ((env cmd stdin).returncode ≠ 0 →
      run_proc env cmd stdin =
        (.error (.compileError cmd (env cmd stdin).stderr), [])) := by
  constructor
  · intro h0
    simp only [run_proc, h0]
    by_cases h : (env cmd stdin).stderr = "" <;> simp [h]
  · intro hne
    simp [run_proc, hne]

/-- Witness for C2 at a concrete oracle: a zero-exit call with nonempty stderr
returns stdout and logs one warning; a nonzero-exit call fails with the
CompileError carrying command and stderr. -/
theorem run_proc_contract_witness :
    run_proc (fun _ _ => ⟨0, "out", "warning text"⟩) ["lessc", "a.less"] none =
      (.ok "out", [Log.warnStderr "lessc" "warning text"]) ∧
    run_proc (fun _ _ => ⟨1, "", "boom"⟩) ["lessc", "a.less"] none =
      (.error (.compileError ["lessc", "a.less"] "boom"), []) := by
  constructor
  · have h := (run_proc_contract (fun _ _ => ⟨0, "out", "warning text"⟩)
      ["lessc", "a.less"] none).1 (by decide)
    simpa using h
  · have h := (run_proc_contract (fun _ _ => ⟨1, "", "boom"⟩)
      ["lessc", "a.less"] none).2 (by decide)
    simpa using h

/-- C1: with the block identifier present in the current manifest,
needs_compile returns ok of a boolean that is false exactly when the cached
manifest records the block with the same version as the current manifest and
the compiled output file exists on disk; with the identifier absent from the
current manifest it fails fast with an AssertionError instead of returning a
boolean. -/
theorem needs_compile_iff (pe : PathEnv) (σ : Settings) (blk : BlockCfg)
    (fs : Fs) (cached current : Manifest) :
    (∀ ver, current.blocks.lookup blk.name_hash = some ver →
      needs_compile pe σ blk fs cached current =
        .ok (decide ¬ (cached.blocks.lookup blk.name_hash = some ver ∧
          isfile fs (get_compiled_path pe σ blk) = true))) ∧
    (current.blocks.lookup blk.name_hash = none →
      needs_compile pe σ blk fs cached current =
        .error (.assertionError blk.name_hash)) := by
  constructor
  · intro ver hver
    simp only [needs_compile, hver]
    cases hc : cached.blocks.lookup blk.name_hash with
    | none => simp [hc]
    | some cv =>
      by_cases hv : cv = ver
      · subst hv
        by_cases hf : isfile fs (get_compiled_path pe σ blk) <;> simp [hf]
      · have : ¬ (some cv = some ver ∧
            isfile fs (get_compiled_path pe σ blk) = true) := by
          intro hand
          exact hv (Option.some.inj hand.1)
        simp [hv, this]
  · intro hnone
    simp [needs_compile, hnone]

/-- Witness for C1: a concrete pair of manifests where the cached version
matches and the output file exists, so needs_compile returns ok false. -/
theorem needs_compile_iff_witness :
    needs_compile
      ⟨fun _ r => r, id, fun _ n => n, fun _ => none⟩
      ⟨"/s", "/s/", "yui", "lessc", "sass", "cc"⟩
      ⟨["a.css"], "tmpl", "h1", "out.css"⟩
      [("out.css", "compiled")]
      ⟨[], [("h1", "v1")]⟩ ⟨[], [("h1", "v1")]⟩ = .ok false := by
  have h := (needs_compile_iff
      ⟨fun _ r => r, id, fun _ n => n, fun _ => none⟩
      ⟨"/s", "/s/", "yui", "lessc", "sass", "cc"⟩
      ⟨["a.css"], "tmpl", "h1", "out.css"⟩
      [("out.css", "compiled")]
      ⟨[], [("h1", "v1")]⟩ ⟨[], [("h1", "v1")]⟩).1 "v1" (by rfl)
  rw [h]
  simp [isfile, get_compiled_path, List.lookup]

/-- C6: get_paths resolves the declared relative urls in order; when every
resolved path is a file it returns exactly that ordered list, and when any is
missing it fails with a DependencyError listing every missing path (the
comma-join of all non-file paths, in declared order), not just the first. -/
theorem get_paths_spec (pe : PathEnv) (fs : Fs) (σ : Settings)
    (blk : BlockCfg) :
    ((∀ p ∈ blk.rel_urls.map (pe.make_static_path2 σ.static_dir),
        isfile fs p = true) →
      get_paths pe fs σ blk =
        .ok (blk.rel_urls.map (pe.make_static_path2 σ.static_dir))) ∧
    ((∃ p ∈ blk.rel_urls.map (pe.make_static_path2 σ.static_dir),
        isfile fs p = false) →
      get_paths pe fs σ blk =
        .error (.dependencyError blk.src_path
          (String.intercalate ","
            ((blk.rel_urls.map (pe.make_static_path2 σ.static_dir)).filter
              (fun p => ! isfile fs p))))) := by
  constructor
  · intro hall
    have h : (blk.rel_urls.map (pe.make_static_path2 σ.static_dir)).all
        (fun p => isfile fs p) = true := by
      rw [List.all_eq_true]
      exact hall
    simp only [get_paths, h, if_true]
  · intro ⟨p, hp, hmiss⟩
    have h : (blk.rel_urls.map (pe.make_static_path2 σ.static_dir)).all
        (fun p => isfile fs p) = false := by
      rw [List.all_eq_false]
      exact ⟨p, hp, by simp [hmiss]⟩
    simp only [get_paths, h, Bool.false_eq_true, if_false]

/-- Witness for C6: two of three declared assets are missing and both appear,
in order, in the DependencyError; with all present the resolved ordered list is
returned. -/
theorem get_paths_spec_witness :
    get_paths
      ⟨fun d r => d ++ "/" ++ r, id, fun _ n => n, fun _ => none⟩
      [("/s/b.css", "")]
      ⟨"/s", "/s/", "yui", "lessc", "sass", "cc"⟩
      ⟨["a.css", "b.css", "c.css"], "tmpl", "h1", "out.css"⟩ =
      .error (.dependencyError "tmpl" "/s/a.css,/s/c.css") ∧
    get_paths
      ⟨fun d r => d ++ "/" ++ r, id, fun _ n => n, fun _ => none⟩
      [("/s/a.css", ""), ("/s/b.css", "")]
      ⟨"/s", "/s/", "yui", "lessc", "sass", "cc"⟩
      ⟨["a.css", "b.css"], "tmpl", "h1", "out.css"⟩ =
      .ok ["/s/a.css", "/s/b.css"] := by
  constructor
  · have h := (get_paths_spec
        ⟨fun d r => d ++ "/" ++ r, id, fun _ n => n, fun _ => none⟩
        [("/s/b.css", "")]
        ⟨"/s", "/s/", "yui", "lessc", "sass", "cc"⟩
        ⟨["a.css", "b.css", "c.css"], "tmpl", "h1", "out.css"⟩).2
      (by refine ⟨"/s/a.css", by simp, ?_⟩; rfl)
    rw [h]
    rfl
  · have h := (get_paths_spec
        ⟨fun d r => d ++ "/" ++ r, id, fun _ n => n, fun _ => none⟩
        [("/s/a.css", ""), ("/s/b.css", "")]
        ⟨"/s", "/s/", "yui", "lessc", "sass", "cc"⟩
        ⟨["a.css", "b.css"], "tmpl", "h1", "out.css"⟩).1
      (by intro p hp; fin_cases hp <;> rfl)
    rw [h]
    rfl

/-- Counterexample to C7 as stated: reordering the asset list does not always
change the resulting hash. With two distinct asset paths whose recorded
content-versions are the identical string, get_current_content_hash returns
the same digest for the declared order [a.css, b.css] and for its reordering
[b.css, a.css]. -/
theorem content_hash_reorder_equal_versions :
    get_current_content_hash
      ⟨fun d r => d ++ "/" ++ r, id, fun _ n => n, fun _ => none⟩
      [("/s/a.css", "x"), ("/s/b.css", "y")]
      ⟨"/s", "/s/", "yui", "lessc", "sass", "cc"⟩
      ⟨["a.css", "b.css"], "tmpl", "h1", "out.css"⟩
      ⟨[("/s/a.css", "v"), ("/s/b.css", "v")], []⟩ =
    get_current_content_hash
      ⟨fun d r => d ++ "/" ++ r, id, fun _ n => n, fun _ => none⟩
      [("/s/a.css", "x"), ("/s/b.css", "y")]
      ⟨"/s", "/s/", "yui", "lessc", "sass", "cc"⟩
      ⟨["b.css", "a.css"], "tmpl", "h1", "out.css"⟩
      ⟨[("/s/a.css", "v"), ("/s/b.css", "v")], []⟩ ∧
    (["a.css", "b.css"] : List String) ≠ ["b.css", "a.css"] := by
  exact ⟨rfl, by decide⟩

/-- C7 (amended): get_current_content_hash deterministically folds the
content-versions of the block's asset paths, in the order given, into the md5
digest of their concatenation; reordering the assets changes the hash whenever
it changes the concatenated version string (witnessed concretely below for
distinct versions), while a reordering that leaves the concatenation unchanged
yields the identical hash. -/
theorem get_current_content_hash_amended :
    (∀ pe fs σ blk manifest paths versions,
      get_paths pe fs σ blk = .ok paths →
      gather_versions manifest.assets paths = .ok versions →
      get_current_content_hash pe fs σ blk manifest =
        .ok (md5hex ((versions.map strBytes).join))) ∧
    (∀ versions versions' : List String,
      (versions.map strBytes).join = (versions'.map strBytes).join →
      md5hex ((versions.map strBytes).join) =
        md5hex ((versions'.map strBytes).join)) ∧
    md5hex (([("aa" : String), "bb"].map strBytes).join) ≠
      md5hex (([("bb" : String), "aa"].map strBytes).join) := by
  refine ⟨?_, ?_, ?_⟩
  · intro pe fs σ blk manifest paths versions hp hv
    simp only [get_current_content_hash, hp, hv]
  · intro versions versions' h
    exact congrArg md5hex h
  · decide

/-- Witness for C7 (amended): at a concrete manifest the hash is the md5 of
the in-order concatenation of the two version strings. -/
theorem get_current_content_hash_amended_witness :
    get_current_content_hash
      ⟨fun d r => d ++ "/" ++ r, id, fun _ n => n, fun _ => none⟩
      [("/s/a.css", "x"), ("/s/b.css", "y")]
      ⟨"/s", "/s/", "yui", "lessc", "sass", "cc"⟩
      ⟨["a.css", "b.css"], "tmpl", "h1", "out.css"⟩
      ⟨[("/s/a.css", "aa"), ("/s/b.css", "bb")], []⟩ =
      .ok (md5hex ((["aa", "bb"].map strBytes).join)) := by
  exact (get_current_content_hash_amended).1
    ⟨fun d r => d ++ "/" ++ r, id, fun _ n => n, fun _ => none⟩
    [("/s/a.css", "x"), ("/s/b.css", "y")]
    ⟨"/s", "/s/", "yui", "lessc", "sass", "cc"⟩
    ⟨["a.css", "b.css"], "tmpl", "h1", "out.css"⟩
    ⟨[("/s/a.css", "aa"), ("/s/b.css", "bb")], []⟩
    ["/s/a.css", "/s/b.css"] ["aa", "bb"] rfl rfl

/-- C3: for a matched static url() reference whose file exists with the given
contents, the reference is replaced by the data URI exactly when the raw size
is at most 24 KiB and the data URI is strictly shorter than 32 KiB; when the
raw size exceeds 24 KiB or the data URI reaches 32 KiB, the matched text is
left untouched. -/
theorem inline_images_thresholds (pe : PathEnv) (fs : Fs)
    (before url_prefix rel_path after content : String)
    (hfile : fs.lookup (pe.make_static_path1 rel_path) = some content) :
    (content.length ≤ 24576 ∧
        (data_uri_of pe rel_path content).length < 32768 →
      replacer pe fs before url_prefix rel_path after =
        .ok (before ++ data_uri_of pe rel_path content ++ after)) ∧
    (content.length > 24576 ∨
        32768 ≤ (data_uri_of pe rel_path content).length →
      replacer pe fs before url_prefix rel_path after =
        .ok (before ++ url_prefix ++ rel_path ++ after)) := by
  constructor
  · rintro ⟨hsize, hlen⟩
    simp only [replacer, hfile]
    rw [if_neg (by omega), if_neg (by omega)]
  · rintro hskip
    simp only [replacer, hfile]
    by_cases hsize : content.length > 24576
    · rw [if_pos hsize]
    · have hlen : 32768 ≤ (data_uri_of pe rel_path content).length := by
        rcases hskip with h | h
        · omega
        · exact h
      rw [if_neg hsize, if_pos hlen]

/-- Witness for C3: a 2-byte png is inlined as its data URI; a 24577-byte file
(one byte over the 24 KiB threshold) is left untouched. -/
theorem inline_images_thresholds_witness :
    replacer
      ⟨fun d r => d ++ "/" ++ r, fun r => "/s/" ++ r, fun _ n => n,
        fun _ => some "image/png"⟩
      [("/s/i.png", "ab")] "url(" "/s/" "i.png" ")" =
      .ok ("url(" ++ "data:image/png;base64,YWI=" ++ ")") ∧
    replacer
      ⟨fun d r => d ++ "/" ++ r, fun r => "/s/" ++ r, fun _ n => n,
        fun _ => some "image/png"⟩
      [("/s/big.png", String.mk (List.replicate 24577 'a'))]
      "url(" "/s/" "big.png" ")" =
      .ok ("url(" ++ "/s/" ++ "big.png" ++ ")") := by
  constructor
  · have h := (inline_images_thresholds
      ⟨fun d r => d ++ "/" ++ r, fun r => "/s/" ++ r, fun _ n => n,
        fun _ => some "image/png"⟩
      [("/s/i.png", "ab")] "url(" "/s/" "i.png" ")" "ab" rfl).1
      (by constructor <;> decide)
    rw [h]
    rfl
  · have h := (inline_images_thresholds
      ⟨fun d r => d ++ "/" ++ r, fun r => "/s/" ++ r, fun _ n => n,
        fun _ => some "image/png"⟩
      [("/s/big.png", String.mk (List.replicate 24577 'a'))]
      "url(" "/s/" "big.png" ")" (String.mk (List.replicate 24577 'a'))
      rfl).2
      (Or.inl (by
        have hl : (String.mk (List.replicate 24577 'a')).length = 24577 :=
          List.length_replicate 24577 'a'
        omega))
    exact h

/-- C10: when the MIME lookup for an eligible asset returns None, the
reference is still inlined and the data URI embeds the literal text None in
its MIME field. -/
theorem inline_images_mime_none (pe : PathEnv) (fs : Fs)
    (before url_prefix rel_path after content : String)
    (hfile : fs.lookup (pe.make_static_path1 rel_path) = some content)
    (hmime : pe.guess_type (pe.make_static_path1 rel_path) = none)
    (hsize : content.length ≤ 24576)
    (hlen : (data_uri_of pe rel_path content).length < 32768) :
    replacer pe fs before url_prefix rel_path after =
      .ok (before ++ data_uri_of pe rel_path content ++ after) ∧
    data_uri_of pe rel_path content =
      "data:None;base64," ++ b64encode (strBytes content) := by
  constructor
  · simp only [replacer, hfile]
    rw [if_neg (by omega), if_neg (by omega)]
  · simp only [data_uri_of, hmime, format_mime]
    congr 1

/-- Witness for C10: a 2-byte asset with no registered MIME type is inlined as
the data URI data:None;base64,YWI=. -/
theorem inline_images_mime_none_witness :
    replacer
      ⟨fun d r => d ++ "/" ++ r, fun r => "/s/" ++ r, fun _ n => n,
        fun _ => none⟩
      [("/s/i.xyz", "ab")] "url(" "/s/" "i.xyz" ")" =
      .ok ("url(" ++ ("data:None;base64," ++ b64encode (strBytes "ab")) ++
        ")") := by
  have h := inline_images_mime_none
    ⟨fun d r => d ++ "/" ++ r, fun r => "/s/" ++ r, fun _ n => n,
      fun _ => none⟩
    [("/s/i.xyz", "ab")] "url(" "/s/" "i.xyz" ")" "ab" rfl rfl
    (by decide) (by decide)
  rw [h.1, h.2]

/-- Counterexample to C8 as stated: with the url() reference /s/x.png matched
while no such file exists, the inlining pass aborts with the AssertionError
raised by assert os.path.isfile(path) — not with the DependencyError kind the
claim names. -/
theorem inline_images_missing_is_assert :
    inline_images
      ⟨fun d r => d ++ "/" ++ r, fun r => "/s/" ++ r, fun _ n => n,
        fun _ => none⟩
      [] [CssPiece.ref "url(" "/s/" "x.png" ")"] =
      .error (.assertionError "/s/x.png") ∧
    Err.isDependency (.assertionError "/s/x.png") = false := by
  exact ⟨rfl, rfl⟩

/-- C8 (amended): when a matched static url() reference resolves to a path
that is not a file, inline_images fails fast (the reference is not left
untouched), but with the AssertionError of the isfile assertion — naming the
resolved path — rather than a DependencyError. -/
theorem inline_images_missing_assert (pe : PathEnv) (fs : Fs)
    (before url_prefix rel_path after : String) (rest : List CssPiece)
    (hmiss : fs.lookup (pe.make_static_path1 rel_path) = none) :
    inline_images pe fs
        (CssPiece.ref before url_prefix rel_path after :: rest) =
      .error (.assertionError (pe.make_static_path1 rel_path)) := by
  simp only [inline_images, replacer, hmiss]

/-- Witness for C8 (amended): a missing /s/x.png aborts the pass with the
AssertionError naming the resolved path, even though later pieces remain. -/
theorem inline_images_missing_assert_witness :
    inline_images
      ⟨fun d r => d ++ "/" ++ r, fun r => "/s/" ++ r, fun _ n => n,
        fun _ => none⟩
      [("/s/other.png", "ab")]
      [CssPiece.ref "url(" "/s/" "x.png" ")", CssPiece.lit "rest"] =
      .error (.assertionError "/s/x.png") := by
  exact inline_images_missing_assert
    ⟨fun d r => d ++ "/" ++ r, fun r => "/s/" ++ r, fun _ n => n,
      fun _ => none⟩
    [("/s/other.png", "ab")] "url(" "/s/" "x.png" ")" [CssPiece.lit "rest"]
    rfl

/-- C9: a successful inlining pass emits exactly the in-order concatenation of
the per-piece outputs, where every unmatched stretch of text (including any
url() expression that does not match the static pattern) is emitted verbatim,
and every matched reference is emitted either as its original text or with
only its url argument replaced by the data URI (the surrounding url( quote and
quote ) delimiters preserved). -/
theorem inline_images_frame (pe : PathEnv) (fs : Fs) :
    (∀ pieces out, inline_images pe fs pieces = .ok out →
      out = (pieces.map (pieceOut pe fs)).foldr (· ++ ·) "" ∧
      ∀ s, pieceOut pe fs (CssPiece.lit s) = s) ∧
    (∀ before url_prefix rel_path after r,
      replacer pe fs before url_prefix rel_path after = .ok r →
      r = before ++ url_prefix ++ rel_path ++ after ∨
      ∃ content, fs.lookup (pe.make_static_path1 rel_path) = some content ∧
        r = before ++ data_uri_of pe rel_path content ++ after) := by
  constructor
  · intro pieces out h
    refine ⟨?_, fun s => rfl⟩
    induction pieces generalizing out with
    | nil =>
      simp only [inline_images] at h
      cases h
      rfl
    | cons p rest ih =>
      cases p with
      | lit s =>
        simp only [inline_images] at h
        cases hr : inline_images pe fs rest with
        | error e => rw [hr] at h; cases h
        | ok o =>
          rw [hr] at h
          cases h
          simp only [List.map_cons, List.foldr_cons, pieceOut]
          rw [ih o hr]
      | ref b up rp a =>
        simp only [inline_images] at h
        cases hrep : replacer pe fs b up rp a with
        | error e => rw [hrep] at h; cases h
        | ok r =>
          rw [hrep] at h
          cases hr : inline_images pe fs rest with
          | error e => rw [hr] at h; cases h
          | ok o =>
            rw [hr] at h
            cases h
            simp only [List.map_cons, List.foldr_cons, pieceOut, hrep]
            rw [ih o hr]
  · intro b up rp a r h
    simp only [replacer] at h
    cases hl : fs.lookup (pe.make_static_path1 rp) with
    | none => rw [hl] at h; cases h
    | some content =>
      rw [hl] at h
      dsimp only at h
      by_cases hsize : content.length > 24576
      · rw [if_pos hsize] at h
        cases h
        exact Or.inl rfl
      · rw [if_neg hsize] at h
        by_cases hlen : (data_uri_of pe rp content).length ≥ 32768
        · rw [if_pos hlen] at h
          cases h
          exact Or.inl rfl
        · rw [if_neg hlen] at h
          cases h
          exact Or.inr ⟨content, rfl, rfl⟩

/-- Witness for C9: a pass over text containing a non-matching url(#f)
expression, one matched reference to a small image, and trailing text emits
the unmatched stretches verbatim and rewrites only the matched url argument. -/
theorem inline_images_frame_witness :
    ([CssPiece.lit "a: url(#f); ", CssPiece.ref "url(" "/s/" "i.png" ")",
        CssPiece.lit " tail"].map
      (pieceOut
        ⟨fun d r => d ++ "/" ++ r, fun r => "/s/" ++ r, fun _ n => n,
          fun _ => some "image/png"⟩
        [("/s/i.png", "ab")])).foldr (· ++ ·) "" =
      "a: url(#f); url(data:image/png;base64,YWI=) tail" := by
  have h := (inline_images_frame
    ⟨fun d r => d ++ "/" ++ r, fun r => "/s/" ++ r, fun _ n => n,
      fun _ => some "image/png"⟩
    [("/s/i.png", "ab")]).1
    [CssPiece.lit "a: url(#f); ", CssPiece.ref "url(" "/s/" "i.png" ")",
      CssPiece.lit " tail"]
    "a: url(#f); url(data:image/png;base64,YWI=) tail" (by rfl)
  exact h.1.symm

/-- Helper: on exit code 0, run_proc yields the captured stdout. -/
theorem run_proc_ok_fst (env : ProcEnv) (cmd : List String)
    (stdin : Option String) (h : (env cmd stdin).returncode = 0) :
    (run_proc env cmd stdin).1 = .ok (env cmd stdin).stdout := by
  simp only [run_proc, h]
  by_cases hs : (env cmd stdin).stderr = "" <;> simp [hs]

/-- Helper: on nonzero exit, run_proc yields the CompileError. -/
theorem run_proc_err_fst (env : ProcEnv) (cmd : List String)
    (stdin : Option String) (h : (env cmd stdin).returncode ≠ 0) :
    (run_proc env cmd stdin).1 =
      .error (.compileError cmd (env cmd stdin).stderr) := by
  simp [run_proc, h]

/-- Helper: when every lessc invocation exits 0, the transpile loop spawns one
process per path in order and collects the stdouts in order. -/
theorem run_each_ok (env : ProcEnv) (lessc : String) (paths : List String)
    (h : ∀ p ∈ paths, (env [lessc, p] none).returncode = 0) :
    run_each env lessc paths =
      (paths.map (fun p => ([lessc, p], (none : Option String))),
       .ok (paths.map (fun p => (env [lessc, p] none).stdout))) := by
  induction paths with
  | nil => rfl
  | cons p ps ih =>
    have hp := h p (List.mem_cons_self p ps)
    have hrest : ∀ q ∈ ps, (env [lessc, q] none).returncode = 0 :=
      fun q hq => h q (List.mem_cons_of_mem p hq)
    simp only [run_each, run_proc_ok_fst env [lessc, p] none hp, ih hrest,
      List.map_cons]
    rfl

/-- C5: with the input paths resolved and every transpiler call succeeding,
LESS compilation spawns exactly one lessc invocation per resolved input path,
in input order, and delegates to the CSS strategy's do_compile with the
newline-join of the per-file transpiler outputs as pre-supplied css_input
(both the subsequent trace and the result are those of that delegated
call). -/
theorem less_do_compile_per_file (env : ProcEnv) (pe : PathEnv) (fs : Fs)
    (σ : Settings) (blk : BlockCfg) (pieces_of : String → List CssPiece)
    (paths : List String)
    (hp : get_paths pe fs σ blk = .ok paths)
    (hok : ∀ p ∈ paths, (env [σ.lessc_path, p] none).returncode = 0) :
    less_do_compile env pe fs σ blk pieces_of =
      (paths.map (fun p => ([σ.lessc_path, p], (none : Option String))) ++
         (css_do_compile env pe fs σ blk
           (some (String.intercalate "\n"
             (paths.map (fun p => (env [σ.lessc_path, p] none).stdout))))
           false pieces_of).1,
       (css_do_compile env pe fs σ blk
           (some (String.intercalate "\n"
             (paths.map (fun p => (env [σ.lessc_path, p] none).stdout))))
           false pieces_of).2) := by
  simp only [less_do_compile, hp, run_each_ok env σ.lessc_path paths hok]

/-- Witness for C5: for the two files a.less and b.less the transpiler is
spawned exactly twice, once per file in order, and the CSS stage receives
transpile(a) newline transpile(b) as its piped stdin. -/
theorem less_do_compile_per_file_witness :
    less_do_compile
      (fun cmd _ =>
        if cmd = ["lessc", "/s/a.less"] then ⟨0, "A", ""⟩
        else if cmd = ["lessc", "/s/b.less"] then ⟨0, "B", ""⟩
        else ⟨0, "min", ""⟩)
      ⟨fun d r => d ++ "/" ++ r, fun r => "/s/" ++ r, fun _ n => n,
        fun _ => none⟩
      [("/s/a.less", ""), ("/s/b.less", "")]
      ⟨"/s", "/s/", "yui", "lessc", "sassc", "cc"⟩
      ⟨["a.less", "b.less"], "tmpl", "h1", "out.css"⟩
      (fun c => [CssPiece.lit c]) =
      ([(["lessc", "/s/a.less"], none), (["lessc", "/s/b.less"], none),
        (["java", "-jar", "yui", "--type", "css", "--line-break", "160"],
          some "A\nB")],
       .ok "min") := by
  have h := less_do_compile_per_file
    (fun cmd _ =>
      if cmd = ["lessc", "/s/a.less"] then ⟨0, "A", ""⟩
      else if cmd = ["lessc", "/s/b.less"] then ⟨0, "B", ""⟩
      else ⟨0, "min", ""⟩)
    ⟨fun d r => d ++ "/" ++ r, fun r => "/s/" ++ r, fun _ n => n,
      fun _ => none⟩
    [("/s/a.less", ""), ("/s/b.less", "")]
    ⟨"/s", "/s/", "yui", "lessc", "sassc", "cc"⟩
    ⟨["a.less", "b.less"], "tmpl", "h1", "out.css"⟩
    (fun c => [CssPiece.lit c])
    ["/s/a.less", "/s/b.less"] (by rfl)
    (by intro p hp; fin_cases hp <;> rfl)
  rw [h]
  rfl

/-- Counterexample to C4 as stated: with the single declared asset a.sass
missing on disk (its resolved path /s/a.sass is not a file), SASS compilation
does not fail with a dependency error before spawning; it spawns the external
transpiler anyway, and passes the UNRESOLVED relative url a.sass on the
command line rather than the resolved input path. -/
theorem sass_spawns_unresolved :
    isfile []
      ((⟨fun d r => d ++ "/" ++ r, fun r => "/s/" ++ r, fun _ n => n,
          fun _ => none⟩ : PathEnv).make_static_path2 "/s" "a.sass") =
      false ∧
    sass_do_compile (fun _ _ => ⟨0, "css-out", ""⟩)
      ⟨fun d r => d ++ "/" ++ r, fun r => "/s/" ++ r, fun _ n => n,
        fun _ => none⟩
      [] ⟨"/s", "/s/", "yui", "lessc", "sassc", "cc"⟩
      ⟨["a.sass"], "tmpl", "h1", "out.css"⟩ (fun c => [CssPiece.lit c]) =
      ([(["sassc", "--compass", "--trace", "-l", "a.sass"], none),
        (["java", "-jar", "yui", "--type", "css", "--line-break", "160"],
          some "css-out")],
       .ok "css-out") := by
  exact ⟨rfl, rfl⟩

/-- C4 (amended): SASS compilation never resolves its declared input paths
(no dependency check precedes the spawn); it invokes the external SASS
transpiler exactly once, with the declared relative urls appended unresolved
to the command, and on success passes the transpiler's stdout into the CSS
strategy's do_compile as pre-supplied css_input; on failure it propagates the
CompileError. -/
theorem sass_do_compile_amended (env : ProcEnv) (pe : PathEnv) (fs : Fs)
    (σ : Settings) (blk : BlockCfg) (pieces_of : String → List CssPiece) :
    ((env ([σ.sass_compiler_path, "--compass", "--trace", "-l"] ++
        blk.rel_urls) none).returncode = 0 →
      sass_do_compile env pe fs σ blk pieces_of =
        (([σ.sass_compiler_path, "--compass", "--trace", "-l"] ++
            blk.rel_urls, (none : Option String)) ::
          (css_do_compile env pe fs σ blk
            (some (env ([σ.sass_compiler_path, "--compass", "--trace", "-l"]
              ++ blk.rel_urls) none).stdout) false pieces_of).1,
         (css_do_compile env pe fs σ blk
            (some (env ([σ.sass_compiler_path, "--compass", "--trace", "-l"]
              ++ blk.rel_urls) none).stdout) false pieces_of).2)) ∧
    ((env ([σ.sass_compiler_path, "--compass", "--trace", "-l"] ++
        blk.rel_urls) none).returncode ≠ 0 →
      sass_do_compile env pe fs σ blk pieces_of =
        ([([σ.sass_compiler_path, "--compass", "--trace", "-l"] ++
            blk.rel_urls, none)],
         .error (.compileError
           ([σ.sass_compiler_path, "--compass", "--trace", "-l"] ++
             blk.rel_urls)
           (env ([σ.sass_compiler_path, "--compass", "--trace", "-l"] ++
             blk.rel_urls) none).stderr))) := by
  constructor
  · intro h
    simp only [sass_do_compile, run_proc_ok_fst _ _ _ h]
  · intro h
    simp only [sass_do_compile, run_proc_err_fst _ _ _ h]

/-- Witness for C4 (amended): at a concrete oracle the single transpiler spawn
carries the unresolved url and its stdout is piped on into the CSS stage. -/
theorem sass_do_compile_amended_witness :
    sass_do_compile (fun _ _ => ⟨0, "css-out", ""⟩)
      ⟨fun d r => d ++ "/" ++ r, fun r => "/s/" ++ r, fun _ n => n,
        fun _ => none⟩
      [] ⟨"/s", "/s/", "yui", "lessc", "sassc", "cc"⟩
      ⟨["b.sass"], "tmpl", "h1", "out.css"⟩ (fun c => [CssPiece.lit c]) =
      ((["sassc", "--compass", "--trace", "-l", "b.sass"],
          (none : Option String)) ::
        (css_do_compile (fun _ _ => ⟨0, "css-out", ""⟩)
          ⟨fun d r => d ++ "/" ++ r, fun r => "/s/" ++ r, fun _ n => n,
            fun _ => none⟩
          [] ⟨"/s", "/s/", "yui", "lessc", "sassc", "cc"⟩
          ⟨["b.sass"], "tmpl", "h1", "out.css"⟩
          (some "css-out") false (fun c => [CssPiece.lit c])).1,
       (css_do_compile (fun _ _ => ⟨0, "css-out", ""⟩)
          ⟨fun d r => d ++ "/" ++ r, fun r => "/s/" ++ r, fun _ n => n,
            fun _ => none⟩
          [] ⟨"/s", "/s/", "yui", "lessc", "sassc", "cc"⟩
          ⟨["b.sass"], "tmpl", "h1", "out.css"⟩
          (some "css-out") false (fun c => [CssPiece.lit c])).2) := by
  exact (sass_do_compile_amended (fun _ _ => ⟨0, "css-out", ""⟩)
    ⟨fun d r => d ++ "/" ++ r, fun r => "/s/" ++ r, fun _ n => n,
      fun _ => none⟩
    [] ⟨"/s", "/s/", "yui", "lessc", "sassc", "cc"⟩
    ⟨["b.sass"], "tmpl", "h1", "out.css"⟩ (fun c => [CssPiece.lit c])).1
    (by rfl)
